import Mathlib

/-!
Verification of the messy-table extraction and normalization pipeline of a
finance-dashboard repository (scripts 01_audit_workbook.py and
02_understand_pnl_sheets.py).  Spreadsheet cells are modelled as a tagged
variant with three cases (empty, number, text); finite numbers are exact
rationals, and the embedded float reader returns a value domain with the
non-finite results inf and nan that Python float() can produce from the
literals inf, infinity and nan; it also accepts the underscore digit
grouping of those literals Python permits between digits.  A numeric cell
itself is finite: the scripts turn a NaN cell into the missing marker
before any arithmetic, and spreadsheet readers do not produce infinite cell
values.  Integer-valued cells print without a decimal point, matching the
int cells that the workbook reader produces for account codes.
-/

set_option maxRecDepth 4096

attribute [local semireducible] Rat.mul Rat.inv Rat.add Rat.sub

/-- One spreadsheet cell: empty (None / NaN), a number, or text. -/
inductive Cell where
  | empty : Cell
  | num : ℚ → Cell
  | str : String → Cell
deriving DecidableEq, Repr

/-- Characters stripped by str.strip. -/
def wsChar (c : Char) : Bool := c.isWhitespace

/-- Strip leading and trailing whitespace from a character list. -/
def trimChars (cs : List Char) : List Char :=
  ((cs.dropWhile wsChar).reverse.dropWhile wsChar).reverse

/-- Python str.strip on a string. -/
def strTrim (s : String) : String := ⟨trimChars s.toList⟩

/-- Lower-case every character. -/
def strLower (s : String) : String := ⟨s.toList.map Char.toLower⟩

/-- Upper-case every character, modelling str.upper. -/
def strUpper (s : String) : String := ⟨s.toList.map Char.toUpper⟩

/-- Python s.replace(ch, empty string): delete every occurrence of one character. -/
def removeChar (ch : Char) (s : String) : String :=
  ⟨s.toList.filter (fun c => c ≠ ch)⟩

/-- Python s.startswith(p). -/
def strStartsWith (s p : String) : Bool := p.toList.isPrefixOf s.toList

/-- Python s.endswith(p). -/
def strEndsWith (s p : String) : Bool := p.toList.isSuffixOf s.toList

/-- Substring containment, modelling the in operator and re.search of a literal. -/
def strContainsSub (hay needle : String) : Bool :=
  hay.toList.tails.any (fun t => needle.toList.isPrefixOf t)

/-- Decimal digit character for a value below ten. -/
def digitChar (n : Nat) : Char := Char.ofNat (48 + n)

/-- Decimal digits of a natural number, fuel-based so the kernel can reduce it. -/
def natDigitsAux (fuel n : Nat) : List Char :=
  match fuel with
  | 0 => []
  | f + 1 => if n < 10 then [digitChar n] else natDigitsAux f (n / 10) ++ [digitChar (n % 10)]

/-- Decimal string of a natural number, modelling Python str on an int. -/
def natStr (n : Nat) : String := ⟨natDigitsAux (n + 1) n⟩

/-- Decimal string of an integer. -/
def intStr (i : Int) : String :=
  if i < 0 then "-" ++ natStr i.natAbs else natStr i.natAbs

/-- String form of a rational cell value, modelling Python str on a number.
Integral values print like Python ints; non-integral values print as a
fraction, which shares with the originals every property the pipeline
inspects (non-blank, not a keyword, not a pure digit string). -/
def ratStr (q : ℚ) : String :=
  if q.den = 1 then intStr q.num else intStr q.num ++ "/" ++ natStr q.den

/-- Python str applied to a cell as pandas astype(str) does: NaN prints nan. -/
def pyCellStr (c : Cell) : String :=
  match c with
  | Cell.empty => "nan"
  | Cell.num q => ratStr q
  | Cell.str s => s

/-- normalize_text from 01_audit_workbook.py: None and NaN give the empty
string, every other value gives its trimmed string form. -/
def normText (c : Cell) : String :=
  match c with
  | Cell.empty => ""
  | c => strTrim (pyCellStr c)

/-- Value of a list of decimal digit characters. -/
def digitsToNat (ds : List Char) : Nat :=
  ds.foldl (fun a c => a * 10 + (c.toNat - 48)) 0

/-- The value domain of Python float results: a finite value (exact
rational in this model), a signed infinity, or nan.  Equality of this type
is representation identity, used only to state which variant a computation
returns, never IEEE comparison semantics. -/
inductive PyFloat where
  | fin : ℚ → PyFloat
  | inf : Bool → PyFloat
  | nan : PyFloat
deriving DecidableEq, Repr

/-- Python unary minus on a float value: negate a finite value, flip the
sign of an infinity, and leave nan as nan. -/
def pyNeg (v : PyFloat) : PyFloat :=
  match v with
  | PyFloat.fin q => PyFloat.fin (-q)
  | PyFloat.inf b => PyFloat.inf (!b)
  | PyFloat.nan => PyFloat.nan

/-- Whether a float value is finite. -/
def pyFloatIsFinite (v : PyFloat) : Bool :=
  match v with
  | PyFloat.fin _ => true
  | _ => false

/-- Read one maximal digit group with the PEP 515 underscore rule: a digit,
then further digits, where a single underscore may sit between two digits.
Returns the digits (underscores removed) and the unconsumed remainder; an
underscore not followed by a digit is left unconsumed, so malformed
groupings fail later as Python float() does. -/
def digitGroup : List Char → List Char × List Char
  | [] => ([], [])
  | [c] => if c.isDigit then ([c], []) else ([], [c])
  | c :: c2 :: rest =>
    if c.isDigit then
      if c2.isDigit then
        let p := digitGroup (c2 :: rest)
        (c :: p.1, p.2)
      else if c2 == '_' then
        match rest with
        | [] => ([c], [c2])
        | d :: r2 =>
          if d.isDigit then
            let p := digitGroup (d :: r2)
            (c :: p.1, p.2)
          else ([c], c2 :: d :: r2)
      else ([c], c2 :: rest)
    else ([], c :: c2 :: rest)

/-- Finish reading a float literal: optional exponent part (digit group,
underscores permitted), then end of input.  Used by pyFloatE after the
mantissa has been read. -/
def finishExp (sgn mant : ℚ) (rest : List Char) : Except String ℚ :=
  match rest with
  | [] => Except.ok (sgn * mant)
  | e :: r =>
    if e == 'e' || e == 'E' then
      let p : Bool × List Char :=
        match r with
        | '+' :: rr => (false, rr)
        | '-' :: rr => (true, rr)
        | rr => (false, rr)
      let q := digitGroup p.2
      if q.1.isEmpty || !q.2.isEmpty then
        Except.error "could not convert string to float"
      else if p.1 then
        Except.ok (sgn * (mant / (10 : ℚ) ^ digitsToNat q.1))
      else
        Except.ok (sgn * (mant * (10 : ℚ) ^ digitsToNat q.1))
    else Except.error "could not convert string to float"

/-- Python float applied to a string: raises ValueError (modelled as error)
when the text is not a float literal.  Accepts an optional sign, the
case-insensitive words inf, infinity and nan (giving the non-finite
values), or a decimal literal with optional fraction and exponent, with
underscores permitted between digits. -/
def pyFloatE (s : String) : Except String PyFloat :=
  let cs := trimChars s.toList
  let sg : Bool × List Char :=
    match cs with
    | '+' :: r => (false, r)
    | '-' :: r => (true, r)
    | r => (false, r)
  let low := sg.2.map Char.toLower
  if low == ['i', 'n', 'f'] || low == ['i', 'n', 'f', 'i', 'n', 'i', 't', 'y'] then
    Except.ok (PyFloat.inf sg.1)
  else if low == ['n', 'a', 'n'] then
    Except.ok PyFloat.nan
  else
    let sgn : ℚ := if sg.1 then -1 else 1
    let q := digitGroup sg.2
    (match q.2 with
      | '.' :: r =>
        let f := digitGroup r
        if q.1.isEmpty && f.1.isEmpty then
          Except.error "could not convert string to float"
        else
          finishExp sgn ((digitsToNat q.1 : ℚ) + (digitsToNat f.1 : ℚ) / (10 : ℚ) ^ f.1.length) f.2
      | _ =>
        if q.1.isEmpty then Except.error "could not convert string to float"
        else finishExp sgn (digitsToNat q.1 : ℚ) q.2).map PyFloat.fin

/-- The text remainder that parse_messy_number hands to float: trim, delete
every parenthesis and comma, trim again. -/
def cleanedToken (v : String) : String :=
  let s := strTrim v
  strTrim (removeChar ',' (removeChar ')' (removeChar '(' s)))

/-- parse_messy_number from both scripts: None/NaN and the sentinels give
None; numeric values pass through as finite floats; text is trimmed, a
fully parenthesized form marks negation, parentheses and commas are
deleted, and the remainder goes to float with ValueError caught to None
(non-finite float results such as inf pass through untouched). -/
def parseMessyNumber (x : Cell) : Option PyFloat :=
  match x with
  | Cell.empty => none
  | Cell.num q => some (PyFloat.fin q)
  | Cell.str v =>
    let s := strTrim v
    if s == "" || s == "-" then none
    else
      let isParens := strStartsWith s "(" && strEndsWith s ")"
      match pyFloatE (cleanedToken v) with
      | Except.error _ => none
      | Except.ok val => some (if isParens then pyNeg val else val)

/-- looks_like_account_code on a string: trimmed text is three to six
decimal digits (regex fullmatch of three to six digits). -/
def strIsAccountCode (s : String) : Bool :=
  let t := strTrim s
  3 ≤ t.length && t.length ≤ 6 && t.toList.all Char.isDigit

/-- looks_like_account_code from 02_understand_pnl_sheets.py on a cell:
None/NaN is never an account code, other values go through str and strip. -/
def cellIsAccountCode (c : Cell) : Bool :=
  match c with
  | Cell.empty => false
  | c => strIsAccountCode (pyCellStr c)

/-- Python str.isupper: at least one alphabetic character and no lowercase
character (ASCII model of cased characters). -/
def pyIsUpper (s : String) : Bool :=
  s.toList.any Char.isAlpha && s.toList.all (fun c => !c.isLower)

/-- The month-name set of 01_audit_workbook.py (upper-case abbreviations). -/
def monthNamesUpper : List String :=
  ["JAN", "FEB", "MAR", "APR", "MAY", "JUN", "JUL", "AUG", "SEP", "OCT", "NOV", "DEC"]

/-- row_score_for_header: +4 for an ACCOUNT cell, +4 for a line-item cell,
+1 per month-abbreviation cell, +2 for a TOTAL cell. -/
def rowScoreForHeader (rowVals : List String) : Nat :=
  let upper := rowVals.map strUpper
  (if upper.any (fun v => v == "ACCOUNT") then 4 else 0) +
  (if upper.any (fun v =>
      removeChar ' ' v == "LINEITEM" || removeChar ' ' v == "LINEITEMS" || v == "LINE ITEM")
    then 4 else 0) +
  upper.countP (fun v => monthNamesUpper.contains v) +
  (if upper.any (fun v => v == "TOTAL") then 2 else 0)

/-- Header score of row i of a grid, after normalize_text on every cell. -/
def scoreAt (grid : List (List Cell)) (i : Nat) : Nat :=
  rowScoreForHeader ((grid.getD i []).map normText)

/-- The candidate list built by detect_header_row: pairs (index, score) for
the scanned rows whose score is positive, in scan order. -/
def headerCandidates (grid : List (List Cell)) (n : Nat) : List (Nat × Nat) :=
  (List.range n).filterMap (fun i =>
    if 0 < scoreAt grid i then some (i, scoreAt grid i) else none)

/-- Head of the stable descending sort of the candidates: the earliest
candidate whose score is maximal.  A later candidate replaces the current
best only on a strictly larger score, which is exactly the stable-sort
tie-break of the source. -/
def bestCandidate : List (Nat × Nat) → Option (Nat × Nat)
  | [] => none
  | x :: xs => some (xs.foldl (fun b c => if c.2 > b.2 then c else b) x)

/-- detect_header_row: scan the first search_rows rows (default 60), keep
positive scores, return the index of the best-scoring row, or none. -/
def detectHeaderRow (grid : List (List Cell)) (searchRows : Nat := 60) : Option Nat :=
  (bestCandidate (headerCandidates grid (min searchRows grid.length))).map Prod.fst

/-- A cell pandas treats as missing (isna): the empty cell. -/
def cellIsNa (c : Cell) : Bool :=
  match c with
  | Cell.empty => true
  | _ => false

/-- dropna(how=all) keeps a row exactly when some cell is not missing. -/
def keepRowB (r : List Cell) : Bool := r.any (fun c => !cellIsNa c)

/-- is_blank_col: a column is blank when every cell is missing, or every
cell prints (via astype(str), where NaN prints nan) as whitespace only. -/
def colIsBlankB (rows : List (List Cell)) (j : Nat) : Bool :=
  rows.all (fun r => cellIsNa (r.getD j Cell.empty)) ||
  rows.all (fun r => strTrim (pyCellStr (r.getD j Cell.empty)) == "")

deriving instance DecidableEq for Except

/-- An extracted table: column labels plus data rows. -/
structure PTable where
  cols : List String
  rows : List (List Cell)
deriving DecidableEq, Repr

/-- Column positions kept after the blank-column drop, evaluated against the
rows that survived the blank-row drop. -/
def keptColIdx (ncols : Nat) (rows1 : List (List Cell)) : List Nat :=
  (List.range ncols).filter (fun j => !colIsBlankB rows1 j)

/-- The blank-row then blank-column removal of extract_table_using_header:
drop rows whose every cell is missing, then drop the columns that
is_blank_col marks blank among the remaining rows. -/
def cleanTable (t : PTable) : PTable :=
  let rows1 := t.rows.filter keepRowB
  let kept := keptColIdx t.cols.length rows1
  ⟨kept.map (fun j => t.cols.getD j ""),
   rows1.map (fun r => kept.map (fun j => r.getD j Cell.empty))⟩

/-- The removal as the source actually runs it: the blank-column scan
iterates the column labels and selects each by label, so a duplicated label
hands is_blank_col a DataFrame, whose Series truth value raises ValueError
unconditionally; with pairwise distinct labels the label scan coincides
with the positional scan of cleanTable. -/
def cleanTableE (t : PTable) : Except String PTable :=
  if t.cols.Nodup then Except.ok (cleanTable t)
  else Except.error "ValueError: The truth value of a Series is ambiguous"

/-- extract_table_using_header: positional row access raises IndexError when
the header index is out of bounds; otherwise the header cells become the
trimmed column labels, the following rows become data, and blank rows and
blank columns are removed, raising ValueError when two labels collide. -/
def extractTable (grid : List (List Cell)) (headerRow : Nat) : Except String PTable :=
  if h : headerRow < grid.length then
    cleanTableE ⟨(grid.get ⟨headerRow, h⟩).map normText, grid.drop (headerRow + 1)⟩
  else
    Except.error "IndexError: single positional indexer is out-of-bounds"

/-- Written from the claim text, for comparison with the source behaviour: a
row is blank when every cell is empty or whitespace-only. -/
def specRowBlank (r : List Cell) : Bool :=
  r.all (fun c => cellIsNa c || strTrim (pyCellStr c) == "")

/-- Trimmed string form of the account-column cell of a row, as produced by
astype(str) followed by strip in detect_pnl_row_types. -/
def accStr (p : Cell × Cell) : String := strTrim (pyCellStr p.1)

/-- Trimmed string form of the line-item cell of a row. -/
def lineStr (p : Cell × Cell) : String := strTrim (pyCellStr p.2)

/-- is_account of detect_pnl_row_types. -/
def rowIsAccount (p : Cell × Cell) : Bool := strIsAccountCode (accStr p)

/-- is_section: not an account row, line text all upper-case and non-empty. -/
def rowIsSection (p : Cell × Cell) : Bool :=
  !rowIsAccount p && pyIsUpper (lineStr p) && lineStr p != ""

/-- The subtotal pattern: starts with Total, or contains Gross Profit,
EBITDA or Net Income, case-insensitively (re.search of the alternation,
where the start anchor binds only to the first branch). -/
def subtotalPattern (l : String) : Bool :=
  let low := strLower l
  strStartsWith low "total" || strContainsSub low "gross profit" ||
  strContainsSub low "ebitda" || strContainsSub low "net income"

/-- is_subtotal: not an account row and the line text matches the pattern. -/
def rowIsSubtotal (p : Cell × Cell) : Bool := !rowIsAccount p && subtotalPattern (lineStr p)

/-- The counts dictionary returned by detect_pnl_row_types. -/
structure PnlRowTypeCounts where
  rowsTotal : Nat
  rowsAccount : Nat
  rowsSectionHeaders : Nat
  rowsSubtotals : Nat
  rowsOtherNonaccount : Nat
deriving DecidableEq, Repr

/-- detect_pnl_row_types on the (account cell, line cell) pairs of a table:
total rows, account rows, section-header rows, subtotal rows, and all
non-account rows. -/
def detectPnlRowTypes (rows : List (Cell × Cell)) : PnlRowTypeCounts :=
  ⟨rows.length,
   rows.countP (fun p => rowIsAccount p),
   rows.countP (fun p => rowIsSection p),
   rows.countP (fun p => rowIsSubtotal p),
   rows.countP (fun p => !rowIsAccount p)⟩

/-- The sheet-name pattern of detect_pnl_sheets: after trimming, a scenario
word Actual or Budget, whitespace, the P ampersand L token, whitespace, and
exactly four digits, all case-insensitive.  Returns the canonical
title-cased scenario and the year. -/
def matchPnlName (s : String) : Option (String × Nat) :=
  let low := (trimChars s.toList).map Char.toLower
  let tryScen : List Char → String → Option (String × Nat) := fun scen name =>
    if scen.isPrefixOf low then
      let r1 := low.drop scen.length
      let w1 := r1.span Char.isWhitespace
      if w1.1.isEmpty then none
      else if ['p', '&', 'l'].isPrefixOf w1.2 then
        let r3 := w1.2.drop 3
        let w2 := r3.span Char.isWhitespace
        if w2.1.isEmpty then none
        else
          let d := w2.2.span Char.isDigit
          if d.1.length == 4 && d.2.isEmpty then some (name, digitsToNat d.1) else none
      else none
    else none
  match tryScen ['a', 'c', 't', 'u', 'a', 'l'] "Actual" with
  | some r => some r
  | none => tryScen ['b', 'u', 'd', 'g', 'e', 't'] "Budget"

/-- detect_pnl_sheets over a list of sheet names: every matching name paired
with its parsed scenario and year, in order; non-matching names are skipped
and never an error. -/
def detectPnlSheets (names : List String) : List (String × String × Nat) :=
  names.filterMap (fun s => (matchPnlName s).map (fun p => (s, p.1, p.2)))

/-- One row of the wide P and L table handed to wide_to_long_fact: the
account cell, the line-item cell, and the already-normalized month values
(clean_wide_pnl has applied parse_messy_number to every month column). -/
structure WideRow where
  account : Cell
  lineItem : Cell
  cells : String → Option ℚ

/-- The wide table handed to wide_to_long_fact, with the constant scenario
and year columns added by clean_wide_pnl and the set of month columns the
sheet actually has. -/
structure WideTable where
  scenario : String
  year : Int
  monthCols : List String
  rows : List WideRow

/-- Month list of 02_understand_pnl_sheets.py (title case). -/
def monthsTitle : List String :=
  ["Jan", "Feb", "Mar", "Apr", "May", "Jun", "Jul", "Aug", "Sep", "Oct", "Nov", "Dec"]

/-- MONTH_TO_NUM: Jan is 1 through Dec is 12. -/
def monthToNum (m : String) : Nat := monthsTitle.indexOf m + 1

/-- IsAccountRow of clean_wide_pnl: looks_like_account_code on the Account
column value. -/
def isAccountRowW (r : WideRow) : Bool := cellIsAccountCode r.account

/-- The month columns wide_to_long_fact melts: the canonical months that are
present in the table, in canonical order. -/
def presentMonths (t : WideTable) : List String :=
  monthsTitle.filter (fun m => t.monthCols.contains m)

/-- One long fact row produced by the melt plus the derived calendar fields
(month ordinal and quarter label; the two date columns are derived from the
same ordinal and year and are not modelled separately). -/
structure LongFactRow where
  account : Cell
  lineItem : Cell
  scenario : String
  year : Int
  month : String
  amount : Option ℚ
  monthNumber : Nat
  quarter : String

/-- The long fact row wide_to_long_fact emits for one account row and one
month column. -/
def emitFact (t : WideTable) (r : WideRow) (m : String) : LongFactRow :=
  { account := r.account
    lineItem := r.lineItem
    scenario := t.scenario
    year := t.year
    month := m
    amount := r.cells m
    monthNumber := monthToNum m
    quarter := "Q" ++ natStr ((monthToNum m - 1) / 3 + 1) }

/-- wide_to_long_fact: an empty wide table passes through; otherwise only
the rows whose IsAccountRow flag is set are melted, one output row per
(month column, account row) pair in melt order. -/
def wideToLongFact (t : WideTable) : List LongFactRow :=
  if t.rows.isEmpty then []
  else
    let acc := t.rows.filter isAccountRowW
    (presentMonths t).flatMap (fun m => acc.map (fun r => emitFact t r m))

example : parseMessyNumber (Cell.str "12,345") = some (PyFloat.fin 12345) := by decide
example : parseMessyNumber (Cell.str "(2,119,020)") = some (PyFloat.fin (-2119020)) := by decide
example : parseMessyNumber (Cell.str "-") = none := by decide
example : parseMessyNumber (Cell.str "") = none := by decide
example : parseMessyNumber (Cell.num 42) = some (PyFloat.fin 42) := by decide
example : parseMessyNumber (Cell.str "abc") = none := by decide
example : parseMessyNumber (Cell.str "(1,234") = some (PyFloat.fin 1234) := by decide
example : parseMessyNumber (Cell.str "((4)") = some (PyFloat.fin (-4)) := by decide
example : parseMessyNumber (Cell.str "1.5") = some (PyFloat.fin (3/2)) := by decide
example : parseMessyNumber (Cell.str "2e3") = some (PyFloat.fin 2000) := by decide
example : parseMessyNumber (Cell.str "1e-2") = some (PyFloat.fin (1/100)) := by decide
example : parseMessyNumber (Cell.str "inf") = some (PyFloat.inf false) := by decide
example : parseMessyNumber (Cell.str "-Infinity") = some (PyFloat.inf true) := by decide
example : parseMessyNumber (Cell.str "NaN") = some PyFloat.nan := by decide
example : parseMessyNumber (Cell.str "1_234") = some (PyFloat.fin 1234) := by decide
example : parseMessyNumber (Cell.str "1_2.3_4e1_0") = some (PyFloat.fin 123400000000) := by decide
example : parseMessyNumber (Cell.str "1__2") = none := by decide
example : parseMessyNumber (Cell.str "1_") = none := by decide
example : parseMessyNumber (Cell.str "_1") = none := by decide
example : parseMessyNumber (Cell.str "1._5") = none := by decide

/-! Theorems for the frozen claims, in claim order where dependencies allow. -/

/-- C4 counterexample: on a one-row table whose line item is the section
header REVENUE, the four counts returned by detect_pnl_row_types sum to 2
while the row count is 1, so the four tags do not partition the rows. -/
theorem claim4_counterexample :
    detectPnlRowTypes [(Cell.str "", Cell.str "REVENUE")] =
      ⟨1, 0, 1, 0, 1⟩ ∧
    (0 + 1 + 0 + 1 ≠ 1) := by
  decide

/-- C4 amended: the account flag and its complement partition the rows
(account + other_nonaccount = total), while the section-header and subtotal
counts are counts of possibly overlapping subsets of the non-account rows,
so the four counts need not sum to the total. -/
theorem claim4_counts_amended : ∀ rows : List (Cell × Cell),
    (detectPnlRowTypes rows).rowsAccount + (detectPnlRowTypes rows).rowsOtherNonaccount =
      (detectPnlRowTypes rows).rowsTotal ∧
    (detectPnlRowTypes rows).rowsSectionHeaders ≤ (detectPnlRowTypes rows).rowsOtherNonaccount ∧
    (detectPnlRowTypes rows).rowsSubtotals ≤ (detectPnlRowTypes rows).rowsOtherNonaccount := by
  intro rows
  refine ⟨?_, ?_, ?_⟩
  · have h := (List.length_eq_countP_add_countP (fun p => rowIsAccount p) rows).symm
    simpa using h
  · exact List.countP_mono_left (fun p _ hp => by
      simp only [rowIsSection, Bool.and_eq_true] at hp
      exact hp.1.1)
  · exact List.countP_mono_left (fun p _ hp => by
      simp only [rowIsSubtotal, Bool.and_eq_true] at hp
      exact hp.1)

/-- C5: the normalizer maps the documented examples exactly as the spec
states: comma-grouped text, parenthesized negatives, the dash and empty
sentinels, and numeric pass-through. -/
theorem claim5_normalize_examples :
    parseMessyNumber (Cell.str "12,345") = some (PyFloat.fin 12345) ∧
    parseMessyNumber (Cell.str "(2,119,020)") = some (PyFloat.fin (-2119020)) ∧
    parseMessyNumber (Cell.str "-") = none ∧
    parseMessyNumber (Cell.str "") = none ∧
    parseMessyNumber (Cell.num 42) = some (PyFloat.fin 42) := by
  decide

/-- C6 counterexample: the text inf is accepted by float and flows through
the normalizer as positive infinity, a non-finite value, so the normalizer
does not always return a finite value or the absence marker. -/
theorem claim6_counterexample :
    parseMessyNumber (Cell.str "inf") = some (PyFloat.inf false) ∧
    pyFloatIsFinite (PyFloat.inf false) = false := by
  decide

/-- C6 amended: the normalizer is total and never raises: every cell yields
either a numeric value or the absence marker, and whenever the float reader
reports a ValueError on the cleaned token, the result is the absence
marker, never a propagated error; the returned value however need not be
finite, since the float literals inf, infinity and nan pass through. -/
theorem claim6_normalize_total :
    (∀ c : Cell, parseMessyNumber c = none ∨ ∃ v : PyFloat, parseMessyNumber c = some v) ∧
    (∀ v e : String, pyFloatE (cleanedToken v) = Except.error e →
      parseMessyNumber (Cell.str v) = none) := by
  constructor
  · intro c
    cases h : parseMessyNumber c with
    | none => exact Or.inl rfl
    | some q => exact Or.inr ⟨q, rfl⟩
  · intro v e h
    simp only [parseMessyNumber]
    split
    · rfl
    · rw [h]

/-- C6 witness: the malformed token abc resolves to the absence marker via
the error-catching branch. -/
theorem claim6_normalize_total_witness :
    parseMessyNumber (Cell.str "abc") = none :=
  claim6_normalize_total.2 "abc" "could not convert string to float" (by decide)

/-- Helper: within bounds, getD returns the indexed element. -/
theorem getD_of_lt {α : Type} (l : List α) (n : Nat) (d : α) (h : n < l.length) :
    l.getD n d = l[n] := by
  simp [List.getD_eq_getElem?_getD, List.getElem?_eq_getElem h]

/-- Helper: getD through map, within bounds. -/
theorem getD_map_of_lt {α β : Type} (f : α → β) (l : List α) (n : Nat) (d : β)
    (h : n < l.length) : (l.map f).getD n d = f l[n] := by
  rw [getD_of_lt _ _ _ (by simpa using h)]
  simp

/-- C9: detect_pnl_sheets keeps exactly the names matching the
scenario-year pattern, pairing each with the title-cased scenario and the
parsed year, with no error for non-matching names; Actual P and L 2024 is
kept as (Actual, 2024) and Quarterly Summary is excluded. -/
theorem claim9_sheet_selector :
    (∀ (names : List String) (s sc : String) (y : Nat),
        (s, sc, y) ∈ detectPnlSheets names ↔ s ∈ names ∧ matchPnlName s = some (sc, y)) ∧
    detectPnlSheets ["Actual P&L 2024", "Quarterly Summary"] =
      [("Actual P&L 2024", "Actual", 2024)] ∧
    matchPnlName "Quarterly Summary" = none := by
  refine ⟨?_, by decide, by decide⟩
  intro names s sc y
  simp only [detectPnlSheets, List.mem_filterMap, Option.map_eq_some']
  constructor
  · rintro ⟨a, ha, ⟨p1, p2⟩, hp, heq⟩
    simp only [Prod.mk.injEq] at heq
    obtain ⟨rfl, rfl, rfl⟩ := heq
    exact ⟨ha, hp⟩
  · rintro ⟨hs, hm⟩
    exact ⟨s, hs, (sc, y), hm, rfl⟩

/-- C10 counterexample: the input with unbalanced parentheses that both
starts with an opening and ends with a closing parenthesis is negated: the
text of two opening parentheses, the digit 4 and one closing parenthesis
parses to minus 4, not to the positive 4 the claim states. -/
theorem claim10_counterexample :
    parseMessyNumber (Cell.str "((4)") = some (PyFloat.fin (-4)) ∧
    PyFloat.fin (-4) ≠ PyFloat.fin 4 := by
  decide

set_option maxHeartbeats 1600000 in
/-- C10 amended: all parenthesis characters are stripped before parsing,
and negation is applied exactly when the trimmed text both starts with an
opening parenthesis and ends with a closing one; whenever that boundary
test fails, the parsed value is returned without negation, so the input of
an opening parenthesis followed by 1,234 yields positive 1234. -/
theorem claim10_paren_sign :
    (∀ v : String,
        (strStartsWith (strTrim v) "(" && strEndsWith (strTrim v) ")") = false →
        (strTrim v == "" || strTrim v == "-") = false →
        parseMessyNumber (Cell.str v) = (pyFloatE (cleanedToken v)).toOption) ∧
    parseMessyNumber (Cell.str "(1,234") = some (PyFloat.fin 1234) := by
  refine ⟨?_, by decide⟩
  intro v hpar hss
  cases h : pyFloatE (cleanedToken v) with
  | error e => simp only [parseMessyNumber, hss, Bool.false_eq_true, if_false, h, Except.toOption]
  | ok val =>
    simp only [parseMessyNumber, hss, Bool.false_eq_true, if_false, h, Except.toOption]
    rw [hpar]
    simp

/-- C10 witness: an input with an interior parenthesis only is parsed
without negation via the first part of the amended theorem. -/
theorem claim10_paren_sign_witness :
    parseMessyNumber (Cell.str "12(3") = (pyFloatE (cleanedToken "12(3")).toOption :=
  claim10_paren_sign.1 "12(3" (by decide) (by decide)

/-- C3 counterexample: a data row whose cells are a whitespace-only string
and an empty cell is blank in the sense of the claim, yet extraction keeps
it, because the row drop removes only rows whose every cell is missing. -/
theorem claim3_counterexample :
    extractTable
        [[Cell.str "A", Cell.str "B"], [Cell.str " ", Cell.empty], [Cell.str "x", Cell.str "1"]]
        0 =
      Except.ok ⟨["A", "B"], [[Cell.str " ", Cell.empty], [Cell.str "x", Cell.str "1"]]⟩ ∧
    specRowBlank [Cell.str " ", Cell.empty] = true := by
  decide

/-- C3 amended: extraction errors exactly on the two fatal paths of the
source, an out-of-bounds header row (IndexError) or colliding normalized
header labels (the ValueError of the label-based blank-column scan);
otherwise it keeps exactly the subsequent rows having at least one
non-missing cell (whitespace-only text counts as present), and keeps
exactly the column positions that is_blank_col does not mark blank
(entirely missing, or entirely whitespace-printing, over the surviving
rows). -/
theorem claim3_extract_amended : ∀ (grid : List (List Cell)) (hr : Nat),
    match extractTable grid hr with
    | Except.error _ => grid.length ≤ hr ∨ ¬((grid.getD hr []).map normText).Nodup
    | Except.ok T =>
        ((grid.getD hr []).map normText).Nodup ∧
        T.rows.length = (grid.drop (hr + 1)).countP keepRowB ∧
        T.cols.length =
          (List.range (grid.getD hr []).length).countP
            (fun j => !colIsBlankB ((grid.drop (hr + 1)).filter keepRowB) j) ∧
        (∀ r ∈ grid.drop (hr + 1), keepRowB r = true →
          (keptColIdx (grid.getD hr []).length ((grid.drop (hr + 1)).filter keepRowB)).map
              (fun j => r.getD j Cell.empty) ∈ T.rows) := by
  intro grid hr
  by_cases h : hr < grid.length
  case neg =>
    simp only [extractTable, dif_neg h]
    exact Or.inl (Nat.le_of_not_lt h)
  case pos =>
    have hgd : (grid.getD hr []).map normText = (grid.get ⟨hr, h⟩).map normText := by
      rw [getD_of_lt _ _ _ h]
      rfl
    by_cases hnd : ((grid.get ⟨hr, h⟩).map normText).Nodup
    case neg =>
      simp only [extractTable, dif_pos h, cleanTableE, if_neg hnd]
      exact Or.inr (by rw [hgd]; exact hnd)
    case pos =>
      simp only [extractTable, dif_pos h, cleanTableE, if_pos hnd]
      have hcols : (grid.getD hr []).length = ((grid.get ⟨hr, h⟩).map normText).length := by
        rw [getD_of_lt _ _ _ h]
        simp [List.get_eq_getElem]
      refine ⟨by rw [hgd]; exact hnd, ?_, ?_, ?_⟩
      · simp [cleanTable, List.countP_eq_length_filter]
      · simp only [cleanTable, keptColIdx, List.length_map, List.countP_eq_length_filter, hcols]
      · intro r hr2 hk
        simp only [cleanTable, keptColIdx, hcols, List.mem_map]
        exact ⟨r, List.mem_filter.mpr ⟨hr2, hk⟩, rfl⟩

/-- C7 counterexample: a header row index equal to the grid row count (so
index plus one exceeds it) makes extraction raise the positional IndexError
rather than return an empty table. -/
theorem claim7_counterexample :
    extractTable [[Cell.str "x"]] 1 =
      Except.error "IndexError: single positional indexer is out-of-bounds" := by
  decide

/-- C7 amended: a header index at or beyond the row count raises IndexError
(the fatal StructuralMismatch of the error-handling design, raised by the
positional row access before any column scan), while the last valid index,
where index plus one equals the row count, yields the empty table when the
header labels are pairwise distinct (on duplicated labels the blank-column
scan raises ValueError instead). -/
theorem claim7_bounds_amended : ∀ (grid : List (List Cell)) (hr : Nat),
    (grid.length ≤ hr →
      extractTable grid hr =
        Except.error "IndexError: single positional indexer is out-of-bounds") ∧
    (hr + 1 = grid.length → ((grid.getD hr []).map normText).Nodup →
      extractTable grid hr = Except.ok ⟨[], []⟩) := by
  intro grid hr
  constructor
  · intro h
    simp only [extractTable]
    rw [dif_neg (Nat.not_lt.mpr h)]
  · intro h hnd
    have hlt : hr < grid.length := by omega
    rw [getD_of_lt _ _ _ hlt] at hnd
    have hnd2 : ((grid.get ⟨hr, hlt⟩).map normText).Nodup := by
      rw [List.get_eq_getElem]
      exact hnd
    simp only [extractTable, dif_pos hlt, cleanTableE]
    rw [if_pos hnd2]
    have hd : grid.drop (hr + 1) = [] := List.drop_eq_nil_of_le (by omega)
    rw [hd]
    simp [cleanTable, keptColIdx, colIsBlankB]

/-- C7 witness: the two branches of the amended theorem at concrete grids. -/
theorem claim7_bounds_amended_witness :
    extractTable [[Cell.str "y"], [Cell.str "z"]] 5 =
      Except.error "IndexError: single positional indexer is out-of-bounds" ∧
    extractTable [[Cell.str "h1"]] 0 = Except.ok ⟨[], []⟩ :=
  ⟨(claim7_bounds_amended [[Cell.str "y"], [Cell.str "z"]] 5).1 (by decide),
   (claim7_bounds_amended [[Cell.str "h1"]] 0).2 (by decide) (by decide)⟩

/-- A cell whose astype(str) form is whitespace only: a text cell with
blank trimmed content (this includes the empty string, which pandas also
treats as present, not missing). -/
def cellIsWsStr (c : Cell) : Bool :=
  match c with
  | Cell.str s => strTrim s == ""
  | _ => false

/-- Digit characters are not whitespace. -/
theorem digitChar_not_ws : ∀ m < 10, wsChar (digitChar m) = false := by decide

/-- No character of a printed natural number is whitespace. -/
theorem natDigitsAux_not_ws (fuel n : Nat) : ∀ c ∈ natDigitsAux fuel n, wsChar c = false := by
  induction fuel generalizing n with
  | zero => intro c hc; simp [natDigitsAux] at hc
  | succ f ih =>
    intro c hc
    simp only [natDigitsAux] at hc
    split at hc
    case isTrue h =>
      simp only [List.mem_singleton] at hc
      subst hc
      exact digitChar_not_ws n h
    case isFalse h =>
      rw [List.mem_append] at hc
      cases hc with
      | inl h2 => exact ih (n / 10) c h2
      | inr h2 =>
        simp only [List.mem_singleton] at h2
        subst h2
        exact digitChar_not_ws (n % 10) (Nat.mod_lt _ (by norm_num))

/-- A printed natural number is never the empty string. -/
theorem natDigitsAux_ne_nil (fuel n : Nat) (h : fuel ≠ 0) : natDigitsAux fuel n ≠ [] := by
  cases fuel with
  | zero => exact absurd rfl h
  | succ f =>
    simp only [natDigitsAux]
    split
    · simp
    · simp

/-- No character of a printed integer is whitespace. -/
theorem intStr_not_ws (i : Int) : ∀ c ∈ (intStr i).toList, wsChar c = false := by
  intro c hc
  unfold intStr at hc
  split at hc
  · rw [show ("-" ++ natStr i.natAbs).toList = '-' :: (natStr i.natAbs).toList from rfl] at hc
    cases hc with
    | head => decide
    | tail _ h2 => exact natDigitsAux_not_ws _ _ c h2
  · exact natDigitsAux_not_ws _ _ c hc

/-- No character of a printed rational is whitespace. -/
theorem ratStr_not_ws (q : ℚ) : ∀ c ∈ (ratStr q).toList, wsChar c = false := by
  intro c hc
  unfold ratStr at hc
  split at hc
  · exact intStr_not_ws q.num c hc
  · rw [show (intStr q.num ++ "/" ++ natStr q.den).toList =
        (intStr q.num).toList ++ '/' :: (natStr q.den).toList from by
          simp [String.toList]] at hc
    rw [List.mem_append] at hc
    cases hc with
    | inl h2 => exact intStr_not_ws q.num c h2
    | inr h2 =>
      cases h2 with
      | head => decide
      | tail _ h3 => exact natDigitsAux_not_ws _ _ c h3

/-- A printed rational is never the empty string. -/
theorem ratStr_ne_nil (q : ℚ) : (ratStr q).toList ≠ [] := by
  unfold ratStr intStr
  split
  · split
    · rw [show ("-" ++ natStr q.num.natAbs).toList = '-' :: (natStr q.num.natAbs).toList from rfl]
      simp
    · exact natDigitsAux_ne_nil _ _ (by omega)
  · split
    · rw [show ("-" ++ natStr q.num.natAbs ++ "/" ++ natStr q.den).toList =
          '-' :: ((natStr q.num.natAbs).toList ++ '/' :: (natStr q.den).toList) from by
            simp [String.toList]]
      simp
    · rw [show (natStr q.num.natAbs ++ "/" ++ natStr q.den).toList =
          (natStr q.num.natAbs).toList ++ '/' :: (natStr q.den).toList from by
            simp [String.toList]]
      simp

/-- dropWhile is the identity when no element satisfies the predicate. -/
theorem dropWhile_eq_self_of {α : Type} {p : α → Bool} {l : List α}
    (h : ∀ c ∈ l, p c = false) : l.dropWhile p = l := by
  cases l with
  | nil => rfl
  | cons a l =>
    rw [List.dropWhile_cons, h a (List.mem_cons_self a l)]
    simp

/-- Trimming is the identity on whitespace-free character lists. -/
theorem trimChars_eq_self {cs : List Char} (h : ∀ c ∈ cs, wsChar c = false) :
    trimChars cs = cs := by
  unfold trimChars
  rw [dropWhile_eq_self_of h,
    dropWhile_eq_self_of (fun c hc => h c (List.mem_reverse.mp hc)),
    List.reverse_reverse]

/-- A present, non-whitespace cell never prints as blank: the witness fact
behind the blank-column analysis. -/
theorem strTrim_pyCellStr_ne (c : Cell) (hne : c ≠ Cell.empty) (hws : cellIsWsStr c = false) :
    (strTrim (pyCellStr c) == "") = false := by
  cases c with
  | empty => exact absurd rfl hne
  | num q =>
    have h1 : strTrim (ratStr q) = ratStr q := by
      unfold strTrim
      rw [trimChars_eq_self (ratStr_not_ws q)]
      rfl
    show (strTrim (ratStr q) == "") = false
    rw [h1]
    apply beq_eq_false_iff_ne.mpr
    intro he
    exact ratStr_ne_nil q (by rw [he]; rfl)
  | str s => exact hws

/-- Mapping positional lookup over the index range rebuilds the list. -/
theorem range_map_getD {α : Type} (l : List α) (d : α) :
    (List.range l.length).map (fun j => l.getD j d) = l := by
  apply List.ext_getElem
  · simp
  · intro i h1 h2
    simp only [List.getElem_map, List.getElem_range]
    rw [getD_of_lt _ _ _ h2]

/-- Step lemma for idempotence: when the table is rectangular and free of
whitespace-only text cells, every projected surviving row still has a
non-missing cell, because the column holding its witness cell is kept. -/
theorem proj_keepRow (t : PTable)
    (hrect : ∀ r ∈ t.rows, r.length = t.cols.length)
    (hws : ∀ r ∈ t.rows, ∀ c ∈ r, cellIsWsStr c = false) :
    ∀ r ∈ t.rows.filter keepRowB,
      keepRowB ((keptColIdx t.cols.length (t.rows.filter keepRowB)).map
        (fun j => r.getD j Cell.empty)) = true := by
  intro r hr
  have hrt : r ∈ t.rows := (List.mem_filter.mp hr).1
  have hkr : keepRowB r = true := (List.mem_filter.mp hr).2
  obtain ⟨c, hc, hcna⟩ := List.any_eq_true.mp hkr
  obtain ⟨i, hi, rfl⟩ := List.mem_iff_getElem.mp hc
  have hcna' : cellIsNa r[i] = false := by simpa using hcna
  have hiW : i < t.cols.length := hrect r hrt ▸ hi
  have hne : r[i] ≠ Cell.empty := by
    intro he
    rw [he] at hcna'
    simp [cellIsNa] at hcna'
  have hwsc : cellIsWsStr r[i] = false := hws r hrt r[i] (List.getElem_mem hi)
  have hblank : colIsBlankB (t.rows.filter keepRowB) i = false := by
    apply Bool.or_eq_false_iff.mpr
    constructor
    · apply List.all_eq_false.mpr
      refine ⟨r, hr, ?_⟩
      rw [getD_of_lt _ _ _ hi]
      simp [hcna']
    · apply List.all_eq_false.mpr
      refine ⟨r, hr, ?_⟩
      rw [getD_of_lt _ _ _ hi]
      simp [strTrim_pyCellStr_ne r[i] hne hwsc]
  have hmem : i ∈ keptColIdx t.cols.length (t.rows.filter keepRowB) := by
    unfold keptColIdx
    exact List.mem_filter.mpr ⟨List.mem_range.mpr hiW, by simp [hblank]⟩
  apply List.any_eq_true.mpr
  refine ⟨r.getD i Cell.empty, List.mem_map_of_mem _ hmem, ?_⟩
  rw [getD_of_lt _ _ _ hi]
  simpa using hcna

/-- C8 counterexample: on the table with columns A and B whose second
column is whitespace-only, the first application drops column B, which
leaves the first row fully missing, so a second application drops that row
too: the combined removal is not idempotent. -/
theorem claim8_counterexample :
    cleanTableE ⟨["A", "B"], [[Cell.empty, Cell.str " "], [Cell.str "x", Cell.str " "]]⟩ =
      Except.ok ⟨["A"], [[Cell.empty], [Cell.str "x"]]⟩ ∧
    cleanTableE ⟨["A"], [[Cell.empty], [Cell.str "x"]]⟩ =
      Except.ok ⟨["A"], [[Cell.str "x"]]⟩ ∧
    (⟨["A"], [[Cell.str "x"]]⟩ : PTable) ≠ ⟨["A"], [[Cell.empty], [Cell.str "x"]]⟩ := by
  decide

/-- Positional idempotence kernel of the removal on rectangular tables
without whitespace-only text cells: there blank columns are entirely
missing, so dropping them cannot empty a surviving row. -/
theorem cleanTable_idem : ∀ t : PTable,
    (∀ r ∈ t.rows, r.length = t.cols.length) →
    (∀ r ∈ t.rows, ∀ c ∈ r, cellIsWsStr c = false) →
    cleanTable (cleanTable t) = cleanTable t := by
  intro t hrect hws
  have hfilter : ((cleanTable t).rows).filter keepRowB = (cleanTable t).rows := by
    apply List.filter_eq_self.mpr
    intro pr hpr
    obtain ⟨r, hr, rfl⟩ := List.mem_map.mp hpr
    exact proj_keepRow t hrect hws r hr
  have hlenc : (cleanTable t).cols.length =
      (keptColIdx t.cols.length (t.rows.filter keepRowB)).length := by
    simp [cleanTable]
  have hblank2 : ∀ j' < (keptColIdx t.cols.length (t.rows.filter keepRowB)).length,
      colIsBlankB (cleanTable t).rows j' = false := by
    intro j' hj'
    have hjmem : (keptColIdx t.cols.length (t.rows.filter keepRowB))[j'] ∈
        keptColIdx t.cols.length (t.rows.filter keepRowB) := List.getElem_mem hj'
    have hjb : colIsBlankB (t.rows.filter keepRowB)
        ((keptColIdx t.cols.length (t.rows.filter keepRowB))[j']) = false := by
      have h2 := (List.mem_filter.mp (by unfold keptColIdx at hjmem; exact hjmem)).2
      simpa using h2
    obtain ⟨h1, h2⟩ := Bool.or_eq_false_iff.mp hjb
    obtain ⟨r1, hr1m, hp1⟩ := List.all_eq_false.mp h1
    obtain ⟨r2, hr2m, hp2⟩ := List.all_eq_false.mp h2
    apply Bool.or_eq_false_iff.mpr
    constructor
    · apply List.all_eq_false.mpr
      refine ⟨(keptColIdx t.cols.length (t.rows.filter keepRowB)).map
          (fun j => r1.getD j Cell.empty), List.mem_map_of_mem _ hr1m, ?_⟩
      rw [getD_map_of_lt _ _ _ _ hj']
      exact hp1
    · apply List.all_eq_false.mpr
      refine ⟨(keptColIdx t.cols.length (t.rows.filter keepRowB)).map
          (fun j => r2.getD j Cell.empty), List.mem_map_of_mem _ hr2m, ?_⟩
      rw [getD_map_of_lt _ _ _ _ hj']
      exact hp2
  have hkept2 : keptColIdx (cleanTable t).cols.length ((cleanTable t).rows.filter keepRowB) =
      List.range (cleanTable t).cols.length := by
    rw [hfilter]
    unfold keptColIdx
    apply List.filter_eq_self.mpr
    intro j hj
    have hjlt : j < (cleanTable t).cols.length := List.mem_range.mp hj
    rw [hlenc] at hjlt
    simp [hblank2 j hjlt]
  have hrowfix : ∀ pr ∈ (cleanTable t).rows,
      (List.range (cleanTable t).cols.length).map (fun j => pr.getD j Cell.empty) = pr := by
    intro pr hpr
    obtain ⟨r, hr, rfl⟩ := List.mem_map.mp hpr
    have hlen : ((keptColIdx t.cols.length (t.rows.filter keepRowB)).map
        (fun j => r.getD j Cell.empty)).length = (cleanTable t).cols.length := by
      rw [hlenc, List.length_map]
    rw [← hlen]
    exact range_map_getD _ Cell.empty
  calc cleanTable (cleanTable t)
      = ⟨(keptColIdx (cleanTable t).cols.length ((cleanTable t).rows.filter keepRowB)).map
            (fun j => (cleanTable t).cols.getD j ""),
         ((cleanTable t).rows.filter keepRowB).map
            (fun r => (keptColIdx (cleanTable t).cols.length
                ((cleanTable t).rows.filter keepRowB)).map
              (fun j => r.getD j Cell.empty))⟩ := rfl
    _ = ⟨(List.range (cleanTable t).cols.length).map (fun j => (cleanTable t).cols.getD j ""),
         (cleanTable t).rows.map
            (fun r => (List.range (cleanTable t).cols.length).map
              (fun j => r.getD j Cell.empty))⟩ := by rw [hkept2, hfilter]
    _ = ⟨(cleanTable t).cols, (cleanTable t).rows⟩ := by
          congr 1
          · exact range_map_getD _ ""
          · calc (cleanTable t).rows.map
                  (fun r => (List.range (cleanTable t).cols.length).map
                    (fun j => r.getD j Cell.empty))
                = (cleanTable t).rows.map id := List.map_congr_left hrowfix
              _ = (cleanTable t).rows := List.map_id _
    _ = cleanTable t := rfl

/-- The removal keeps labels pairwise distinct: the kept positions are a
duplicate-free sublist of the index range and index lookup is injective on
a duplicate-free label list. -/
theorem cleanTable_cols_nodup (t : PTable) (h : t.cols.Nodup) : (cleanTable t).cols.Nodup := by
  show ((keptColIdx t.cols.length (t.rows.filter keepRowB)).map
      (fun j => t.cols.getD j "")).Nodup
  apply List.Nodup.map_on
  · intro x hx y hy hxy
    have hxlt : x < t.cols.length :=
      List.mem_range.mp (List.mem_filter.mp hx).1
    have hylt : y < t.cols.length :=
      List.mem_range.mp (List.mem_filter.mp hy).1
    rw [getD_of_lt _ _ _ hxlt, getD_of_lt _ _ _ hylt] at hxy
    exact (List.Nodup.getElem_inj_iff h).mp hxy
  · exact List.Nodup.filter _ (List.nodup_range _)

/-- C8 amended: on a rectangular table with pairwise distinct column labels
and no whitespace-only text cells, the removal computes without error, and
applying it a second time to the result returns that result unchanged; in
general the removal is not idempotent, since dropping a whitespace-only
column can leave a row fully missing, which only the second application
drops. -/
theorem claim8_idempotent_amended : ∀ t : PTable,
    t.cols.Nodup →
    (∀ r ∈ t.rows, r.length = t.cols.length) →
    (∀ r ∈ t.rows, ∀ c ∈ r, cellIsWsStr c = false) →
    cleanTableE t = Except.ok (cleanTable t) ∧
    cleanTableE (cleanTable t) = Except.ok (cleanTable t) := by
  intro t hnod hrect hws
  constructor
  · unfold cleanTableE
    rw [if_pos hnod]
  · unfold cleanTableE
    rw [if_pos (cleanTable_cols_nodup t hnod), cleanTable_idem t hrect hws]

/-- C8 witness: the amended statement applied to a concrete rectangular,
duplicate-free, whitespace-free table. -/
theorem claim8_idempotent_amended_witness :
    cleanTableE ⟨["A", "B"], [[Cell.str "x", Cell.empty], [Cell.empty, Cell.num 7]]⟩ =
      Except.ok (cleanTable ⟨["A", "B"], [[Cell.str "x", Cell.empty], [Cell.empty, Cell.num 7]]⟩) ∧
    cleanTableE (cleanTable ⟨["A", "B"], [[Cell.str "x", Cell.empty], [Cell.empty, Cell.num 7]]⟩) =
      Except.ok (cleanTable ⟨["A", "B"], [[Cell.str "x", Cell.empty], [Cell.empty, Cell.num 7]]⟩) :=
  claim8_idempotent_amended
    ⟨["A", "B"], [[Cell.str "x", Cell.empty], [Cell.empty, Cell.num 7]]⟩
    (by decide) (by decide) (by decide)

/-- Appending one candidate to the scan list updates the best by the
strict-improvement rule, matching one more step of the stable scan. -/
theorem bestCandidate_append (l : List (Nat × Nat)) (c : Nat × Nat) :
    bestCandidate (l ++ [c]) = some (match bestCandidate l with
      | none => c
      | some b => if c.2 > b.2 then c else b) := by
  cases l with
  | nil => rfl
  | cons x xs =>
    show some ((xs ++ [c]).foldl (fun b d => if d.2 > b.2 then d else b) x) = _
    rw [List.foldl_append]
    rfl

/-- Scanning one more row appends its candidate when the score is positive. -/
theorem headerCandidates_succ (grid : List (List Cell)) (n : Nat) :
    headerCandidates grid (n + 1) =
      headerCandidates grid n ++
        (if 0 < scoreAt grid n then [(n, scoreAt grid n)] else []) := by
  unfold headerCandidates
  rw [List.range_succ, List.filterMap_append]
  congr 1
  by_cases h : 0 < scoreAt grid n
  · simp [h]
  · simp [h]


/-- Soundness and best-choice property of the scan, for every depth: when no
scanned row scores positively the result is none, and otherwise the chosen
candidate scores maximally, with the earliest index winning ties. -/
theorem headerBest_spec (grid : List (List Cell)) : ∀ n : Nat,
    (bestCandidate (headerCandidates grid n) = none → ∀ i < n, scoreAt grid i = 0) ∧
    (∀ b, bestCandidate (headerCandidates grid n) = some b →
      b.1 < n ∧ b.2 = scoreAt grid b.1 ∧ 0 < b.2 ∧
      (∀ i < n, scoreAt grid i ≤ b.2) ∧ (∀ i < b.1, scoreAt grid i < b.2)) := by
  intro n
  induction n with
  | zero =>
    constructor
    · intro _ i hi
      omega
    · intro b hb
      simp [headerCandidates, bestCandidate] at hb
  | succ n ih =>
    rw [headerCandidates_succ]
    by_cases hs : 0 < scoreAt grid n
    · rw [if_pos hs, bestCandidate_append]
      constructor
      · intro hnone
        cases hnone
      · intro b hb
        have hb2 := (Option.some.inj hb).symm
        cases hcur : bestCandidate (headerCandidates grid n) with
        | none =>
          rw [hcur] at hb2
          subst hb2
          have hall : ∀ i < n, scoreAt grid i = 0 := ih.1 hcur
          refine ⟨Nat.lt_succ_self n, rfl, hs, ?_, ?_⟩
          · intro i hi
            rcases Nat.lt_succ_iff_lt_or_eq.mp hi with h | h
            · rw [hall i h]
              omega
            · subst h
              exact Nat.le_refl _
          · intro i hi
            rw [hall i hi]
            exact hs
        | some prev =>
          rw [hcur] at hb2
          have hb3 : b = if (n, scoreAt grid n).2 > prev.2 then (n, scoreAt grid n) else prev :=
            hb2
          have hprev := ih.2 prev hcur
          by_cases hgt : (n, scoreAt grid n).2 > prev.2
          · rw [if_pos hgt] at hb3
            subst hb3
            refine ⟨Nat.lt_succ_self n, rfl, hs, ?_, ?_⟩
            · intro i hi
              rcases Nat.lt_succ_iff_lt_or_eq.mp hi with h | h
              · exact Nat.le_of_lt (Nat.lt_of_le_of_lt (hprev.2.2.2.1 i h) hgt)
              · subst h
                exact Nat.le_refl _
            · intro i hi
              exact Nat.lt_of_le_of_lt (hprev.2.2.2.1 i hi) hgt
          · rw [if_neg hgt] at hb3
            subst hb3
            refine ⟨Nat.lt_succ_of_lt hprev.1, hprev.2.1, hprev.2.2.1, ?_, hprev.2.2.2.2⟩
            intro i hi
            rcases Nat.lt_succ_iff_lt_or_eq.mp hi with h | h
            · exact hprev.2.2.2.1 i h
            · subst h
              exact Nat.le_of_not_lt hgt
    · rw [if_neg hs, List.append_nil]
      constructor
      · intro hnone i hi
        rcases Nat.lt_succ_iff_lt_or_eq.mp hi with h | h
        · exact ih.1 hnone i h
        · subst h
          omega
      · intro b hb
        have h := ih.2 b hb
        refine ⟨Nat.lt_succ_of_lt h.1, h.2.1, h.2.2.1, ?_, h.2.2.2.2⟩
        intro i hi
        rcases Nat.lt_succ_iff_lt_or_eq.mp hi with h2 | h2
        · exact h.2.2.2.1 i h2
        · subst h2
          omega

/-- C2: detect_header_row returns the index of a maximum-score row among the
scanned rows, rows scoring zero are never candidates, ties go to the
earliest row index, and when every scanned row scores zero the result is the
no-header marker none rather than an error. -/
theorem claim2_header_locator : ∀ (grid : List (List Cell)) (searchRows : Nat),
    (detectHeaderRow grid searchRows = none →
      ∀ i < min searchRows grid.length, scoreAt grid i = 0) ∧
    (∀ b, detectHeaderRow grid searchRows = some b →
      b < min searchRows grid.length ∧ 0 < scoreAt grid b ∧
      (∀ i < min searchRows grid.length, scoreAt grid i ≤ scoreAt grid b) ∧
      (∀ i < b, scoreAt grid i < scoreAt grid b)) := by
  intro grid searchRows
  have h := headerBest_spec grid (min searchRows grid.length)
  constructor
  · intro hnone
    apply h.1
    unfold detectHeaderRow at hnone
    exact Option.map_eq_none'.mp hnone
  · intro b hb
    unfold detectHeaderRow at hb
    obtain ⟨p, hp, rfl⟩ := Option.map_eq_some'.mp hb
    have h2 := h.2 p hp
    refine ⟨h2.1, ?_, ?_, ?_⟩
    · rw [← h2.2.1]
      exact h2.2.2.1
    · intro i hi
      rw [← h2.2.1]
      exact h2.2.2.2.1 i hi
    · intro i hi
      rw [← h2.2.1]
      exact h2.2.2.2.2 i hi

/-- C2 witness: on a concrete grid whose second row is the header, the
located row scores positively, applied through the main theorem. -/
theorem claim2_header_locator_witness :
    0 < scoreAt [[Cell.str "junk"],
      [Cell.str "Account", Cell.str "Line Item", Cell.str "Jan", Cell.str "Total"]] 1 :=
  ((claim2_header_locator
      [[Cell.str "junk"],
        [Cell.str "Account", Cell.str "Line Item", Cell.str "Jan", Cell.str "Total"]]
      60).2 1 (by decide)).2.1

/-- C1: unpivoting emits exactly one long row per (present month column,
account row) pair, so A account rows and M present months give A times M
LongFactRow entries; every emitted row carries the amount of its source
cell, and every emitted row originates from a row whose account flag is
set, so non-account rows never produce output. -/
theorem claim1_unpivot : ∀ t : WideTable,
    (wideToLongFact t).length =
      (t.rows.filter isAccountRowW).length * (presentMonths t).length ∧
    (∀ f ∈ wideToLongFact t, ∃ r ∈ t.rows, isAccountRowW r = true ∧
      f.month ∈ presentMonths t ∧ f = emitFact t r f.month ∧ f.amount = r.cells f.month) ∧
    (∀ r ∈ t.rows, isAccountRowW r = true → ∀ m ∈ presentMonths t,
      emitFact t r m ∈ wideToLongFact t) := by
  intro t
  by_cases he : t.rows.isEmpty
  · have hnil : t.rows = [] := List.isEmpty_iff.mp he
    rw [wideToLongFact, if_pos he]
    refine ⟨?_, ?_, ?_⟩
    · rw [hnil]
      simp
    · intro f hf
      cases hf
    · intro r hr
      rw [hnil] at hr
      cases hr
  · rw [wideToLongFact, if_neg he]
    refine ⟨?_, ?_, ?_⟩
    · show (List.flatten ((presentMonths t).map
          (fun m => (t.rows.filter isAccountRowW).map (fun r => emitFact t r m)))).length = _
      rw [List.length_flatten, List.map_map]
      have hconst : ((presentMonths t).map
            (Function.comp List.length
              (fun m => (t.rows.filter isAccountRowW).map (fun r => emitFact t r m)))) =
          (presentMonths t).map (fun _ => (t.rows.filter isAccountRowW).length) :=
        List.map_congr_left (fun m _ => by simp [Function.comp])
      rw [hconst, List.map_const', List.sum_replicate, smul_eq_mul]
      exact Nat.mul_comm _ _
    · intro f hf
      rw [List.mem_flatMap] at hf
      obtain ⟨m, hm, hf2⟩ := hf
      rw [List.mem_map] at hf2
      obtain ⟨r, hr, rfl⟩ := hf2
      have hrr := List.mem_filter.mp hr
      exact ⟨r, hrr.1, hrr.2, hm, rfl, rfl⟩
    · intro r hr hacc m hm
      rw [List.mem_flatMap]
      exact ⟨m, hm, List.mem_map_of_mem _ (List.mem_filter.mpr ⟨hr, hacc⟩)⟩
